import Mathlib

/-!
Verification model of the flow simulation-control bridge.

The repository's core library (scenario generators, vehicle registry,
controller hierarchy, simulation connector and environment state machine)
is exercised here through a shallow embedding.  The concrete library
modules are not part of the checked sources, so each component below is
modelled from the specification text; doc comments record which spec
section a definition follows.
-/

namespace Flow

/-- Modelled from the spec: the error taxonomy of section 7
(`ConfigurationError`, `UnknownVehicleError`, `SimulationProtocolError`,
`RouteExhaustionError`, `InvalidStateError`). -/
inductive FlowError where
  | configurationError
  | unknownVehicleError
  | simulationProtocolError
  | routeExhaustionError
  | invalidStateError
deriving DecidableEq, Repr

/-- Modelled from the spec: a seeded PRNG ("seeded PRNG, not wall-clock
entropy", section 4.1).  A linear congruential step on naturals. -/
def lcg (s : Nat) : Nat := (1103515245 * s + 12345) % 2147483648

/-- The i-th draw of the seeded PRNG stream. -/
def lcgStream (seed : Nat) : Nat → Nat
  | 0 => lcg seed
  | n + 1 => lcg (lcgStream seed n)

/-- A deterministic draw in `[0, 1)` (as a rational) from the seeded stream. -/
def randUnit (seed i : Nat) : ℚ := ((lcgStream seed i % 1000 : Nat) : ℚ) / 1000

theorem randUnit_nonneg (seed i : Nat) : 0 ≤ randUnit seed i := by
  unfold randUnit
  positivity

theorem randUnit_lt_one (seed i : Nat) : randUnit seed i < 1 := by
  unfold randUnit
  rw [div_lt_one (by norm_num)]
  have h : lcgStream seed i % 1000 < 1000 := Nat.mod_lt _ (by norm_num)
  exact_mod_cast h

/-- Modelled from the spec: the parameters of the ring scenario generator
(section 4.1): segment length, lane count, vehicle count, spacing policy
parameters (minimum spacing, bounded perturbation magnitude) and seed. -/
structure RingParams where
  length : ℚ
  lanes : Nat
  numVehicles : Nat
  minGap : ℚ
  perturbation : ℚ
  seed : Nat
deriving DecidableEq

/-- Per-vehicle positional perturbation, drawn from a bounded distribution
(`uniform` spacing policy with perturbation, section 4.1). -/
def perturb (p : RingParams) (i : Nat) : ℚ := p.perturbation * randUnit p.seed i

/-- Unperturbed uniform position of vehicle `i` around the ring. -/
def basePos (p : RingParams) (i : Nat) : ℚ := (i : ℚ) * (p.length / (p.numVehicles : ℚ))

/-- Initial longitudinal position of vehicle `i`: uniform spacing plus the
seeded bounded perturbation. -/
def initialPos (p : RingParams) (i : Nat) : ℚ := basePos p i + perturb p i

/-- Topology parameters in range: positive length, at least one lane,
nonnegative spacing and perturbation bounds. -/
def paramsInRange (p : RingParams) : Prop :=
  0 < p.length ∧ 0 < p.lanes ∧ 0 ≤ p.minGap ∧ 0 ≤ p.perturbation

instance (p : RingParams) : Decidable (paramsInRange p) := by
  unfold paramsInRange; infer_instance

/-- Capacity check: the ring can accommodate the requested vehicle count
without violating minimum spacing, even in the worst perturbation case. -/
def capacityOk (p : RingParams) : Prop :=
  (p.numVehicles : ℚ) * (p.minGap + p.perturbation) ≤ p.length

instance (p : RingParams) : Decidable (capacityOk p) := by
  unfold capacityOk; infer_instance

/-- Modelled from the spec: `ScenarioGenerator` (section 4.1) --- produces
the ordered list of initial vehicle placements, or fails with
`ConfigurationError` on out-of-range topology parameters or insufficient
length/lane capacity. -/
def generate (p : RingParams) : Except FlowError (List ℚ) :=
  if ¬ paramsInRange p then .error .configurationError
  else if ¬ capacityOk p then .error .configurationError
  else .ok ((List.range p.numVehicles).map (initialPos p))

/-- Circular distance between two longitudinal coordinates on a ring of
length `L`. -/
def ringDist (L a b : ℚ) : ℚ := min |a - b| (L - |a - b|)

/-- The minimum-spacing invariant over a placement list: every two distinct
placements are at circular distance at least `minGap`. -/
def pairwiseSpacing (L minGap : ℚ) (pl : List ℚ) : Prop :=
  ∀ i j : Fin pl.length, i.1 ≠ j.1 → minGap ≤ ringDist L (pl.get i) (pl.get j)

theorem perturb_nonneg (p : RingParams) (hp : 0 ≤ p.perturbation) (i : Nat) :
    0 ≤ perturb p i :=
  mul_nonneg hp (randUnit_nonneg p.seed i)

theorem perturb_le (p : RingParams) (hp : 0 ≤ p.perturbation) (i : Nat) :
    perturb p i ≤ p.perturbation := by
  unfold perturb
  calc p.perturbation * randUnit p.seed i
      ≤ p.perturbation * 1 :=
        mul_le_mul_of_nonneg_left (le_of_lt (randUnit_lt_one p.seed i)) hp
    _ = p.perturbation := mul_one _

theorem ringDist_comm (L a b : ℚ) : ringDist L a b = ringDist L b a := by
  unfold ringDist
  rw [abs_sub_comm]

theorem spacing_aux (p : RingParams) (hin : paramsInRange p) (hcap : capacityOk p)
    {i j : Nat} (hij : i < j) (hj : j < p.numVehicles) :
    p.minGap ≤ ringDist p.length (initialPos p i) (initialPos p j) := by
  obtain ⟨hL, _, hgap, hpert⟩ := hin
  have hn : 0 < p.numVehicles := lt_of_le_of_lt (Nat.zero_le i) (lt_trans hij hj)
  have hnq : 0 < ((p.numVehicles : ℚ)) := by exact_mod_cast hn
  set u : ℚ := p.length / (p.numVehicles : ℚ) with hu_def
  have hu : p.minGap + p.perturbation ≤ u := by
    rw [hu_def, le_div_iff₀ hnq]
    have := hcap
    unfold capacityOk at this
    linarith
  have hu0 : 0 ≤ u := le_trans (by linarith) hu
  have hL_eq : (p.numVehicles : ℚ) * u = p.length := by
    rw [hu_def, mul_div_cancel₀ _ (ne_of_gt hnq)]
  have hpi0 := perturb_nonneg p hpert i
  have hpi1 := perturb_le p hpert i
  have hpj0 := perturb_nonneg p hpert j
  have hpj1 := perturb_le p hpert j
  have hji1 : (1 : ℚ) ≤ (j : ℚ) - (i : ℚ) := by
    have h1 : (i : ℚ) + 1 ≤ (j : ℚ) := by exact_mod_cast hij
    linarith
  have hjin : (j : ℚ) - (i : ℚ) ≤ (p.numVehicles : ℚ) - 1 := by
    have h1 : (j : ℚ) + 1 ≤ (p.numVehicles : ℚ) := by exact_mod_cast hj
    have h2 : (0 : ℚ) ≤ (i : ℚ) := Nat.cast_nonneg i
    linarith
  have hd_eq : initialPos p j - initialPos p i
      = ((j : ℚ) - (i : ℚ)) * u + (perturb p j - perturb p i) := by
    unfold initialPos basePos
    rw [hu_def]
    ring
  have hmul1 : 1 * u ≤ ((j : ℚ) - (i : ℚ)) * u :=
    mul_le_mul_of_nonneg_right hji1 hu0
  have hd_lb : p.minGap ≤ initialPos p j - initialPos p i := by
    rw [hd_eq]
    linarith
  have hmul2 : 1 * u ≤ ((p.numVehicles : ℚ) - ((j : ℚ) - (i : ℚ))) * u :=
    mul_le_mul_of_nonneg_right (by linarith) hu0
  have hmul2' : u ≤ (p.numVehicles : ℚ) * u - ((j : ℚ) - (i : ℚ)) * u := by
    rw [sub_mul] at hmul2
    linarith
  have hd_ub : initialPos p j - initialPos p i ≤ p.length - p.minGap := by
    rw [hd_eq, ← hL_eq]
    linarith
  have habs : |initialPos p i - initialPos p j| = initialPos p j - initialPos p i := by
    rw [abs_sub_comm, abs_of_nonneg (by linarith)]
  unfold ringDist
  rw [habs]
  exact le_min hd_lb (by linarith)

/-- C2: for valid parameters the generator emits exactly the requested
number of placements and no two placements are closer (circularly) than the
minimum spacing; on insufficient capacity or out-of-range topology
parameters it fails with `ConfigurationError` instead. -/
theorem generate_spec (p : RingParams) :
    (paramsInRange p → capacityOk p →
      ∃ pl, generate p = .ok pl ∧ pl.length = p.numVehicles ∧
        pairwiseSpacing p.length p.minGap pl) ∧
    ((¬ paramsInRange p ∨ ¬ capacityOk p) →
      generate p = .error .configurationError) := by
  constructor
  · intro hin hcap
    refine ⟨(List.range p.numVehicles).map (initialPos p), ?_, ?_, ?_⟩
    · unfold generate
      rw [if_neg (not_not_intro hin), if_neg (not_not_intro hcap)]
    · simp
    · intro i j hne
      have hi' : i.1 < p.numVehicles := by
        have := i.2; simpa using this
      have hj' : j.1 < p.numVehicles := by
        have := j.2; simpa using this
      have hgi : ((List.range p.numVehicles).map (initialPos p)).get i
          = initialPos p i.1 := by
        simp
      have hgj : ((List.range p.numVehicles).map (initialPos p)).get j
          = initialPos p j.1 := by
        simp
      rw [hgi, hgj]
      rcases Nat.lt_or_ge i.1 j.1 with h | h
      · exact spacing_aux p hin hcap h hj'
      · have h' : j.1 < i.1 := lt_of_le_of_ne h (Ne.symm hne)
        rw [ringDist_comm]
        exact spacing_aux p hin hcap h' hi'
  · intro h
    unfold generate
    rcases h with h | h
    · rw [if_pos h]
    · by_cases hin : paramsInRange p
      · rw [if_neg (not_not_intro hin), if_pos h]
      · rw [if_pos hin]

/-- Witness for C2 at concrete ring parameters (length 230, 22 vehicles,
minimum gap 2, perturbation bound 1). -/
theorem generate_spec_witness :
    paramsInRange ⟨230, 1, 22, 2, 1, 42⟩ ∧ capacityOk ⟨230, 1, 22, 2, 1, 42⟩ ∧
    ∃ pl, generate ⟨230, 1, 22, 2, 1, 42⟩ = .ok pl ∧ pl.length = 22 ∧
      pairwiseSpacing 230 2 pl := by
  have h1 : paramsInRange ⟨230, 1, 22, 2, 1, 42⟩ := by
    refine ⟨by norm_num, by norm_num, by norm_num, by norm_num⟩
  have h2 : capacityOk ⟨230, 1, 22, 2, 1, 42⟩ := by
    unfold capacityOk
    norm_num
  exact ⟨h1, h2, (generate_spec _).1 h1 h2⟩

/-- Modelled from the spec: parameters of the car-following controller
(section 4.3): desired speed, time headway, comfortable acceleration and
braking, jam distance, a precomputed interaction coefficient standing for
1/(2*sqrt(a*b)) in the Intelligent Driver Model, the additive noise draw,
and the configured output clipping bounds. -/
structure IDMParams where
  v0 : ℚ
  headway : ℚ
  a : ℚ
  b : ℚ
  s0 : ℚ
  interactionCoeff : ℚ
  noise : ℚ
  maxAccel : ℚ
  maxDecel : ℚ
deriving DecidableEq

/-- Clip a value into `[lo, hi]`. -/
def clip (x lo hi : ℚ) : ℚ := max lo (min x hi)

/-- Raw (unclipped) car-following law: acceleration as a function of own
speed, leader speed and gap (Intelligent Driver Model form; division by a
zero gap is total over ℚ). -/
def idmRaw (p : IDMParams) (v vl gap : ℚ) : ℚ :=
  let sStar := p.s0 + max 0 (v * p.headway + v * (v - vl) * p.interactionCoeff)
  p.a * (1 - (v / p.v0) ^ 4 - (sStar / gap) ^ 2)

/-- Modelled from the spec: `CarFollowingController` output (section 4.3):
the car-following law plus the additive noise term, clipped to the
configured `[-max_decel, max_accel]` bounds. -/
def getAccel (p : IDMParams) (v vl gap : ℚ) : ℚ :=
  clip (idmRaw p v vl gap + p.noise) (-(p.maxDecel)) p.maxAccel

theorem clip_bounds (x lo hi : ℚ) (h : lo ≤ hi) :
    lo ≤ clip x lo hi ∧ clip x lo hi ≤ hi := by
  unfold clip
  constructor
  · exact le_max_left _ _
  · exact max_le h (min_le_right _ _)

/-- C3: for every own-speed/leader-speed/gap combination (zero gap and zero
speed included), the car-following controller's returned acceleration lies
within the configured `[-max_decel, max_accel]` bounds; the computation is
total, so no in-range physical state raises. -/
theorem getAccel_bounded (p : IDMParams) (v vl gap : ℚ)
    (hd : 0 ≤ p.maxDecel) (ha : 0 ≤ p.maxAccel) :
    -(p.maxDecel) ≤ getAccel p v vl gap ∧ getAccel p v vl gap ≤ p.maxAccel := by
  unfold getAccel
  exact clip_bounds _ _ _ (by linarith)

/-- Witness for C3 at the tutorial's bounds (max accel 1, max decel 1) and
the zero-gap, zero-speed edge case. -/
theorem getAccel_bounded_witness :
    (0 : ℚ) ≤ (1 : ℚ) ∧
    (-(1 : ℚ) ≤ getAccel ⟨30, 1, 1, (3 : ℚ) / 2, 2, (1 : ℚ) / 5, 0, 1, 1⟩ 0 0 0 ∧
      getAccel ⟨30, 1, 1, (3 : ℚ) / 2, 2, (1 : ℚ) / 5, 0, 1, 1⟩ 0 0 0 ≤ 1) :=
  ⟨by norm_num, getAccel_bounded ⟨30, 1, 1, (3 : ℚ) / 2, 2, (1 : ℚ) / 5, 0, 1, 1⟩
    0 0 0 (by norm_num) (by norm_num)⟩

/-- Modelled from the spec: the acceleration-capability controller variants
(section 3): a car-following controller, the externally-driven placeholder
(`RLController` in the tutorial --- "computes nothing; marks the vehicle as
action-injected"), and a no-op. -/
inductive AccelController where
  | carFollowing (p : IDMParams)
  | externalMarker
  | noOp
deriving DecidableEq

/-- Local acceleration computation of a controller: the external marker
computes nothing (`none`). -/
def computeAccel : AccelController → ℚ → ℚ → ℚ → Option ℚ
  | .carFollowing p, v, vl, gap => some (getAccel p v vl gap)
  | .externalMarker, _, _, _ => none
  | .noOp, _, _, _ => none

/-- A per-vehicle command pushed to the simulator: acceleration plus
lane-change intent (0 = keep lane). -/
structure Command where
  accel : ℚ
  laneChange : Int
deriving DecidableEq

/-- Modelled from the spec: the fail-closed safe default (section 4.3):
zero acceleration, no lane change. -/
def defaultCommand : Command := ⟨0, 0⟩

/-- Look up the externally supplied action for a vehicle id. -/
def lookupAction (actions : List (String × Command)) (id : String) : Option Command :=
  (actions.find? (fun a => a.1 == id)).map (fun a => a.2)

/-- Modelled from the spec: action injection for an externally-marked
vehicle (section 4.3): the Environment-supplied action when present,
otherwise the safe default rather than leaving the vehicle uncontrolled. -/
def injectedCommand (actions : List (String × Command)) (id : String) : Command :=
  (lookupAction actions id).getD defaultCommand

/-- Per-vehicle command resolution for one step: locally computed for
car-following vehicles, injected for externally-marked ones. -/
def resolveCommand (ctrl : AccelController) (actions : List (String × Command))
    (id : String) (v vl gap : ℚ) : Command :=
  match ctrl with
  | .carFollowing p => ⟨getAccel p v vl gap, 0⟩
  | .externalMarker => injectedCommand actions id
  | .noOp => defaultCommand

/-- C10: the external-action controller computes no acceleration itself,
and when the Environment supplies no action for an externally-marked
vehicle the resolved command is the safe default (zero acceleration, no
lane change) --- total, so nothing raises. -/
theorem externalMarker_spec :
    (∀ v vl gap : ℚ, computeAccel .externalMarker v vl gap = none) ∧
    (∀ (actions : List (String × Command)) (id : String) (v vl gap : ℚ),
      lookupAction actions id = none →
        resolveCommand .externalMarker actions id v vl gap = ⟨0, 0⟩) := by
  constructor
  · intro v vl gap
    rfl
  · intro actions id v vl gap hnone
    unfold resolveCommand injectedCommand
    rw [hnone]
    rfl

/-- Witness for C10: an empty action table supplies nothing for vehicle
"rl", so the resolved command is the safe default. -/
theorem externalMarker_spec_witness :
    lookupAction [] "rl" = none ∧
    resolveCommand .externalMarker [] "rl" 0 0 0 = ⟨0, 0⟩ :=
  ⟨rfl, externalMarker_spec.2 [] "rl" 0 0 0 rfl⟩

/-- Network topology class: closed (e.g. ring) or open. -/
inductive NetTopology where
  | closedNet
  | openNet
deriving DecidableEq

/-- Modelled from the spec: the route table of the generated network,
mapping an edge to the continuation route that starts there (section 4.3:
a route that returns the vehicle to its start edge on a closed network, or
the next predefined route on an open one). -/
structure RoutingContext where
  topology : NetTopology
  routeTable : List (String × List String)
deriving DecidableEq

/-- Continuation route available from a given edge, if any. -/
def continuationFor (ctx : RoutingContext) (edge : String) : Option (List String) :=
  (ctx.routeTable.find? (fun e => e.1 == edge)).map (fun e => e.2)

/-- A vehicle's route is exhausted when it sits on the last edge of its
current route. -/
def routeIsDone (route : List String) (idx : Nat) : Prop :=
  route.length ≤ idx + 1

instance (route : List String) (idx : Nat) : Decidable (routeIsDone route idx) := by
  unfold routeIsDone; infer_instance

/-- Modelled from the spec: `ContinuousRouter` / `ConstantRouteController`
(section 4.3): keeps the current route while it is unfinished; on
exhaustion reassigns the continuation route from the route table, and
fails with `RouteExhaustionError` when no continuation exists. -/
def chooseRoute (ctx : RoutingContext) (route : List String) (idx : Nat)
    (currentEdge : String) : Except FlowError (List String) :=
  if routeIsDone route idx then
    match continuationFor ctx currentEdge with
    | some rt => .ok rt
    | none => .error .routeExhaustionError
  else .ok route

/-- C5: on route exhaustion the routing controller reassigns the
continuation route before the next step when one exists, and raises
`RouteExhaustionError` when none exists (unfinished routes are kept). -/
theorem chooseRoute_spec (ctx : RoutingContext) (route : List String) (idx : Nat)
    (edge : String) :
    (routeIsDone route idx → ∀ rt, continuationFor ctx edge = some rt →
      chooseRoute ctx route idx edge = .ok rt) ∧
    (routeIsDone route idx → continuationFor ctx edge = none →
      chooseRoute ctx route idx edge = .error .routeExhaustionError) ∧
    (¬ routeIsDone route idx → chooseRoute ctx route idx edge = .ok route) := by
  refine ⟨?_, ?_, ?_⟩
  · intro hdone rt hcont
    unfold chooseRoute
    rw [if_pos hdone, hcont]
  · intro hdone hcont
    unfold chooseRoute
    rw [if_pos hdone, hcont]
  · intro hnot
    unfold chooseRoute
    rw [if_neg hnot]

/-- Witness for C5: on a closed ring whose route table continues edge "e1"
into the loop route, an exhausted route is reassigned; with an empty route
table the same exhausted route raises `RouteExhaustionError`. -/
theorem chooseRoute_spec_witness :
    (routeIsDone ["e0", "e1"] 1 ∧
      continuationFor ⟨.closedNet, [("e1", ["e1", "e0"])]⟩ "e1" = some ["e1", "e0"] ∧
      chooseRoute ⟨.closedNet, [("e1", ["e1", "e0"])]⟩ ["e0", "e1"] 1 "e1"
        = .ok ["e1", "e0"]) ∧
    (continuationFor ⟨.openNet, []⟩ "e1" = none ∧
      chooseRoute ⟨.openNet, []⟩ ["e0", "e1"] 1 "e1"
        = .error .routeExhaustionError) := by
  refine ⟨⟨by decide, rfl, ?_⟩, rfl, ?_⟩
  · exact (chooseRoute_spec ⟨.closedNet, [("e1", ["e1", "e0"])]⟩
      ["e0", "e1"] 1 "e1").1 (by decide) ["e1", "e0"] rfl
  · exact (chooseRoute_spec ⟨.openNet, []⟩ ["e0", "e1"] 1 "e1").2.1 (by decide) rfl

/-- Per-vehicle kinematic state held by the registry (section 3). -/
structure VehState where
  pos : ℚ
  lane : Nat
  speed : ℚ
  accel : ℚ
deriving DecidableEq

/-- A registered vehicle: stable identity plus kinematic state. -/
structure Vehicle where
  id : String
  state : VehState
deriving DecidableEq

/-- Modelled from the spec: `VehicleRegistry` (section 4.2) --- the
authoritative per-vehicle store; the underlying list is kept in insertion
order, which is the canonical iteration order. -/
structure VehicleRegistry where
  vehicles : List Vehicle
deriving DecidableEq

/-- `all_ids`: the ordered id sequence, in insertion order. -/
def VehicleRegistry.allIds (r : VehicleRegistry) : List String :=
  r.vehicles.map (fun v => v.id)

/-- `add`: appends a vehicle; enforces id uniqueness (`none` on a
duplicate id). -/
def VehicleRegistry.add (r : VehicleRegistry) (v : Vehicle) :
    Option VehicleRegistry :=
  if r.allIds.contains v.id then none
  else some ⟨r.vehicles ++ [v]⟩

/-- `update`: replaces the state of a known vehicle in place; fails with
`UnknownVehicleError` on an unknown id. -/
def VehicleRegistry.update (r : VehicleRegistry) (id : String) (st : VehState) :
    Except FlowError VehicleRegistry :=
  if r.allIds.contains id then
    .ok ⟨r.vehicles.map (fun v => if v.id == id then { v with state := st } else v)⟩
  else .error .unknownVehicleError

/-- `get`: the state of a vehicle, if registered. -/
def VehicleRegistry.get (r : VehicleRegistry) (id : String) : Option VehState :=
  (r.vehicles.find? (fun v => v.id == id)).map (fun v => v.state)

theorem update_preserves_allIds (r : VehicleRegistry) (id : String) (st : VehState)
    (r' : VehicleRegistry) (h : r.update id st = .ok r') :
    r'.allIds = r.allIds := by
  unfold VehicleRegistry.update at h
  by_cases hmem : r.allIds.contains id
  · rw [if_pos hmem] at h
    cases h
    unfold VehicleRegistry.allIds
    simp only [List.map_map]
    refine List.map_congr_left ?_
    intro v _
    by_cases hv : v.id = id <;> simp [beq_iff_eq, hv]
  · rw [if_neg hmem] at h
    cases h

/-- Batch registry update from a simulator state report, applied in report
order; the first unknown id aborts with its error. -/
def updateAll (r : VehicleRegistry) : List (String × VehState) →
    Except FlowError VehicleRegistry
  | [] => .ok r
  | p :: rest =>
    match r.update p.1 p.2 with
    | .ok r' => updateAll r' rest
    | .error err => .error err

theorem updateAll_preserves_allIds (l : List (String × VehState)) :
    ∀ (r r' : VehicleRegistry), updateAll r l = .ok r' → r'.allIds = r.allIds := by
  induction l with
  | nil =>
    intro r r' h
    cases h
    rfl
  | cons p rest ih =>
    intro r r' h
    unfold updateAll at h
    cases hup : r.update p.1 p.2 with
    | ok r1 =>
      rw [hup] at h
      rw [ih r1 r' h, update_preserves_allIds r p.1 p.2 r1 hup]
    | error err =>
      rw [hup] at h
      cases h

theorem updateAll_error_kind (l : List (String × VehState)) :
    ∀ (r : VehicleRegistry) (err : FlowError), updateAll r l = .error err →
      err = .unknownVehicleError := by
  induction l with
  | nil =>
    intro r err h
    cases h
  | cons p rest ih =>
    intro r err h
    unfold updateAll at h
    cases hup : r.update p.1 p.2 with
    | ok r1 =>
      rw [hup] at h
      exact ih r1 err h
    | error e0 =>
      rw [hup] at h
      cases h
      unfold VehicleRegistry.update at hup
      by_cases hmem : r.allIds.contains p.1
      · rw [if_pos hmem] at hup
        cases hup
      · rw [if_neg hmem] at hup
        exact (Except.error.inj hup).symm

theorem updateAll_unknown (l : List (String × VehState)) :
    ∀ r : VehicleRegistry, (∃ p ∈ l, r.allIds.contains p.1 = false) →
      updateAll r l = .error .unknownVehicleError := by
  induction l with
  | nil =>
    intro r h
    rcases h with ⟨p, hp, _⟩
    cases hp
  | cons hd rest ih =>
    intro r h
    rcases h with ⟨p, hp, hunk⟩
    unfold updateAll
    rcases List.mem_cons.mp hp with rfl | hmem
    · have hupd : r.update p.1 p.2 = .error .unknownVehicleError := by
        unfold VehicleRegistry.update
        rw [if_neg (by rw [hunk]; exact Bool.false_ne_true)]
      rw [hupd]
    · by_cases hhd : r.allIds.contains hd.1
      · have hupd : r.update hd.1 hd.2
            = .ok ⟨r.vehicles.map
                (fun v => if v.id == hd.1 then { v with state := hd.2 } else v)⟩ := by
          unfold VehicleRegistry.update
          rw [if_pos hhd]
        rw [hupd]
        apply ih
        refine ⟨p, hmem, ?_⟩
        rw [update_preserves_allIds r hd.1 hd.2 _ hupd]
        exact hunk
      · have hupd : r.update hd.1 hd.2 = .error .unknownVehicleError := by
          unfold VehicleRegistry.update
          rw [if_neg hhd]
        rw [hupd]

/-- Per-vehicle observation features, contributed in registry order
(section 4.5: speed and position per vehicle). -/
def vehFeatures (v : Vehicle) : List ℚ := [v.state.speed, v.state.pos]

/-- Observation vector: built by iterating the registry in its canonical
(insertion) order. -/
def obsFrom (r : VehicleRegistry) : List ℚ :=
  r.vehicles.flatMap vehFeatures

theorem obsFrom_length (r : VehicleRegistry) :
    (obsFrom r).length = 2 * r.vehicles.length := by
  unfold obsFrom
  induction r.vehicles with
  | nil => rfl
  | cons v rest ih =>
    simp only [List.flatMap_cons, List.length_append, ih]
    unfold vehFeatures
    simp
    ring

/-- The generated network description: ring length and lane count
(immutable once generated for an episode, section 3). -/
structure Network where
  ringLength : ℚ
  lanes : Nat
deriving DecidableEq

/-- Modelled from the spec: environment configuration (section 6): the
scenario parameters, horizon, the optional randomized topology-length
range (`ring_length` in the tutorial), the reward's desired speed, and the
configured terminal predicate over observations. -/
structure EnvConfig where
  scenario : RingParams
  horizon : Nat
  ringLengthRange : Option (Nat × Nat)
  desiredSpeed : ℚ
  terminalPred : List ℚ → Bool

/-- Episode ring length: the fixed configured length when randomization is
disabled, otherwise sampled deterministically from the seeded PRNG. -/
def genLength (cfg : EnvConfig) : ℚ :=
  match cfg.ringLengthRange with
  | none => cfg.scenario.length
  | some r => ((r.1 + lcgStream cfg.scenario.seed 0 % (r.2 - r.1 + 1) : Nat) : ℚ)

/-- Scenario parameters with the episode's (possibly resampled) length. -/
def genScenario (cfg : EnvConfig) : RingParams :=
  { cfg.scenario with length := genLength cfg }

/-- Network generation for one episode. -/
def genNetwork (cfg : EnvConfig) : Network :=
  ⟨genLength cfg, cfg.scenario.lanes⟩

/-- Stable vehicle id for placement index `i`. -/
def mkVehId (i : Nat) : String := "veh" ++ toString i

/-- Vehicles populated from the generated placements, in placement order,
at rest. -/
def initVehicles (pl : List ℚ) : List Vehicle :=
  pl.enum.map (fun e => ⟨mkVehId e.1, ⟨e.2, 0, 0, 0⟩⟩)

/-- Registry repopulated on reset from the scenario generator's output. -/
def initRegistry (cfg : EnvConfig) : VehicleRegistry :=
  match generate (genScenario cfg) with
  | .ok pl => ⟨initVehicles pl⟩
  | .error _ => ⟨[]⟩

/-- Modelled from the spec: the Environment state machine's phases
(section 4.5). -/
inductive Phase where
  | uninitialized
  | ready
  | running
  | doneHorizon
  | doneCrash
  | doneTerminal
deriving DecidableEq

/-- The terminal phases. -/
def terminalPhase (p : Phase) : Prop :=
  p = .doneHorizon ∨ p = .doneCrash ∨ p = .doneTerminal

/-- Done-reason tag carried in `info` (section 6). -/
inductive DoneReason where
  | horizon
  | crash
  | terminalCondition
deriving DecidableEq

/-- The `(observation, reward, done, info.reason)` tuple of one step. -/
structure StepResult where
  obs : List ℚ
  reward : ℚ
  done : Bool
  reason : Option DoneReason
deriving DecidableEq

/-- The external simulator's reply to one step: a per-vehicle state
report, or a timeout / crash of the external process. -/
inductive SimResponse where
  | report (states : List (String × VehState))
  | timeout
  | crashed
deriving DecidableEq

/-- The Environment: configuration plus mutable episode state. -/
structure Env where
  cfg : EnvConfig
  phase : Phase
  registry : VehicleRegistry
  stepCount : Nat
  cumReward : ℚ

/-- Reward: smooth penalty on speed deviation, computed from post-step
state (section 4.5). -/
def rewardOf (cfg : EnvConfig) (r : VehicleRegistry) : ℚ :=
  -((r.vehicles.map (fun v => (v.state.speed - cfg.desiredSpeed) ^ 2)).sum)

/-- Modelled from the spec: `reset()` (section 4.5): regenerates the
network per configuration, repopulates the registry, resets the episode
state and returns the initial observation. -/
def reset (e : Env) : Env × List ℚ :=
  let reg := initRegistry e.cfg
  ({ cfg := e.cfg, phase := .ready, registry := reg, stepCount := 0, cumReward := 0 },
   obsFrom reg)

/-- Modelled from the spec: `step(action)` (sections 4.4--4.5): valid only
from `READY`/`RUNNING` (`InvalidStateError` otherwise); a connector
timeout or crash terminates the episode with `done = true` and reason
`CRASH` rather than raising; a state report of the wrong cardinality fails
with `SimulationProtocolError`; registry updates surface
`UnknownVehicleError`; otherwise the step checks the terminal predicate
and the horizon and emits the observation/reward/done tuple. -/
def envStep (e : Env) (_actions : List (String × Command)) (resp : SimResponse) :
    Except FlowError (Env × StepResult) :=
  if e.phase = .ready ∨ e.phase = .running then
    match resp with
    | .timeout =>
      .ok ({ e with phase := .doneCrash },
           ⟨obsFrom e.registry, 0, true, some .crash⟩)
    | .crashed =>
      .ok ({ e with phase := .doneCrash },
           ⟨obsFrom e.registry, 0, true, some .crash⟩)
    | .report states =>
      if states.length ≠ e.registry.vehicles.length then
        .error .simulationProtocolError
      else
        match updateAll e.registry states with
        | .error err => .error err
        | .ok reg' =>
          let obs := obsFrom reg'
          let rew := rewardOf e.cfg reg'
          let n := e.stepCount + 1
          if e.cfg.terminalPred obs then
            .ok (⟨e.cfg, .doneTerminal, reg', n, e.cumReward + rew⟩,
                 ⟨obs, rew, true, some .terminalCondition⟩)
          else if e.cfg.horizon ≤ n then
            .ok (⟨e.cfg, .doneHorizon, reg', n, e.cumReward + rew⟩,
                 ⟨obs, rew, true, some .horizon⟩)
          else
            .ok (⟨e.cfg, .running, reg', n, e.cumReward + rew⟩,
                 ⟨obs, rew, false, none⟩)
  else .error .invalidStateError

theorem envStep_ne_invalid (e : Env) (acts : List (String × Command))
    (resp : SimResponse) (h : e.phase = .ready ∨ e.phase = .running) :
    envStep e acts resp ≠ .error .invalidStateError := by
  unfold envStep
  rw [if_pos h]
  cases resp with
  | timeout => simp
  | crashed => simp
  | report states =>
    dsimp only
    by_cases hlen : states.length ≠ e.registry.vehicles.length
    · rw [if_pos hlen]
      simp
    · rw [if_neg hlen]
      cases hup : updateAll e.registry states with
      | error err =>
        have hk := updateAll_error_kind states e.registry err hup
        subst hk
        simp
      | ok reg' =>
        dsimp only
        by_cases hterm : e.cfg.terminalPred (obsFrom reg') = true
        · rw [if_pos hterm]
          simp
        · rw [if_neg hterm]
          by_cases hhor : e.cfg.horizon ≤ e.stepCount + 1
          · rw [if_pos hhor]
            simp
          · rw [if_neg hhor]
            simp

/-- C4: `step` is only valid from `READY`/`RUNNING`: from any terminal
phase (and in fact from any other phase) it fails with
`InvalidStateError`, and it avoids that error exactly when the phase is
`READY` or `RUNNING`. -/
theorem step_valid_states (e : Env) (acts : List (String × Command))
    (resp : SimResponse) :
    (terminalPhase e.phase → envStep e acts resp = .error .invalidStateError) ∧
    ((e.phase = .ready ∨ e.phase = .running) ↔
      envStep e acts resp ≠ .error .invalidStateError) := by
  constructor
  · intro hterm
    unfold envStep
    rw [if_neg]
    rcases hterm with h | h | h <;> rw [h] <;> simp
  · constructor
    · exact envStep_ne_invalid e acts resp
    · intro hne
      by_contra hnot
      apply hne
      unfold envStep
      rw [if_neg hnot]

/-- Witness for C4: an environment whose episode ended in `DONE_CRASH`
rejects `step` with `InvalidStateError` until reset. -/
theorem step_valid_states_witness :
    terminalPhase Phase.doneCrash ∧
    envStep ⟨⟨⟨230, 1, 22, 2, 1, 42⟩, 100, none, 5, fun _ => false⟩,
        .doneCrash, ⟨[]⟩, 0, 0⟩ [] .timeout = .error .invalidStateError :=
  ⟨Or.inr (Or.inl rfl),
    (step_valid_states ⟨⟨⟨230, 1, 22, 2, 1, 42⟩, 100, none, 5, fun _ => false⟩,
        .doneCrash, ⟨[]⟩, 0, 0⟩ [] .timeout).1 (Or.inr (Or.inl rfl))⟩

/-- C8: a simulator timeout or crash during a step is surfaced through the
done signal (`done = true`, reason `CRASH`, distinct from the horizon
reason) rather than raised; the environment lands in `DONE_CRASH`, from
which every further `step` fails with `InvalidStateError` (so the step is
never silently retried --- only `reset()` can continue). -/
theorem crash_step_spec (e : Env) (acts : List (String × Command))
    (h : e.phase = .ready ∨ e.phase = .running) :
    envStep e acts .timeout
        = .ok ({ e with phase := .doneCrash },
               ⟨obsFrom e.registry, 0, true, some .crash⟩) ∧
    envStep e acts .crashed
        = .ok ({ e with phase := .doneCrash },
               ⟨obsFrom e.registry, 0, true, some .crash⟩) ∧
    (some DoneReason.crash ≠ some DoneReason.horizon) ∧
    terminalPhase (Env.phase { e with phase := .doneCrash }) ∧
    (∀ (acts' : List (String × Command)) (resp' : SimResponse),
      envStep { e with phase := .doneCrash } acts' resp'
        = .error .invalidStateError) := by
  refine ⟨?_, ?_, by simp, Or.inr (Or.inl rfl), ?_⟩
  · unfold envStep
    rw [if_pos h]
  · unfold envStep
    rw [if_pos h]
  · intro acts' resp'
    unfold envStep
    rw [if_neg]
    simp

/-- Witness for C8: a ready environment hit by a connector timeout. -/
theorem crash_step_spec_witness :
    (Env.phase ⟨⟨⟨230, 1, 22, 2, 1, 42⟩, 100, none, 5, fun _ => false⟩,
        .ready, ⟨[]⟩, 0, 0⟩ = .ready ∨
      Env.phase ⟨⟨⟨230, 1, 22, 2, 1, 42⟩, 100, none, 5, fun _ => false⟩,
        .ready, ⟨[]⟩, 0, 0⟩ = .running) ∧
    envStep ⟨⟨⟨230, 1, 22, 2, 1, 42⟩, 100, none, 5, fun _ => false⟩,
        .ready, ⟨[]⟩, 0, 0⟩ [] .timeout
      = .ok (⟨⟨⟨230, 1, 22, 2, 1, 42⟩, 100, none, 5, fun _ => false⟩,
          .doneCrash, ⟨[]⟩, 0, 0⟩,
        ⟨obsFrom ⟨[]⟩, 0, true, some .crash⟩) :=
  ⟨Or.inl rfl,
    (crash_step_spec ⟨⟨⟨230, 1, 22, 2, 1, 42⟩, 100, none, 5, fun _ => false⟩,
      .ready, ⟨[]⟩, 0, 0⟩ [] (Or.inl rfl)).1⟩

/-- C9: `reset()` is total over every phase of the state machine, always
lands in `READY`, and is idempotent: resetting twice returns the same
environment and the same initial observation as resetting once. -/
theorem reset_idempotent (e : Env) :
    (reset e).1.phase = .ready ∧ reset (reset e).1 = reset e := by
  constructor
  · rfl
  · rfl

/-- A concrete configuration with the tutorial's values (ring length 230,
22 vehicles, horizon 100, fixed topology length). -/
def sampleCfg : EnvConfig := ⟨⟨230, 1, 22, 2, 1, 42⟩, 100, none, 5, fun _ => false⟩

/-- A concrete ready environment holding one registered vehicle. -/
def sampleReadyEnv : Env := ⟨sampleCfg, .ready, ⟨[⟨"veh0", ⟨0, 0, 0, 0⟩⟩]⟩, 0, 0⟩

/-- C1: with identical configuration (scenario parameters and seed) the
initial observation returned by `reset()` is identical across calls; the
generated network is independent of the seed when randomized topology
length is disabled, and in general is a deterministic function of the
scenario parameters (seed included) and the length range. -/
theorem reset_deterministic :
    (∀ e1 e2 : Env, e1.cfg = e2.cfg → (reset e1).2 = (reset e2).2) ∧
    (∀ (cfg : EnvConfig) (s1 s2 : Nat), cfg.ringLengthRange = none →
      genNetwork { cfg with scenario := { cfg.scenario with seed := s1 } }
        = genNetwork { cfg with scenario := { cfg.scenario with seed := s2 } }) ∧
    (∀ cfg1 cfg2 : EnvConfig, cfg1.scenario = cfg2.scenario →
      cfg1.ringLengthRange = cfg2.ringLengthRange →
      genNetwork cfg1 = genNetwork cfg2) := by
  refine ⟨?_, ?_, ?_⟩
  · intro e1 e2 hcfg
    show obsFrom (initRegistry e1.cfg) = obsFrom (initRegistry e2.cfg)
    rw [hcfg]
  · intro cfg s1 s2 hnone
    unfold genNetwork genLength
    simp only [hnone]
  · intro cfg1 cfg2 hs hr
    unfold genNetwork genLength
    rw [hs, hr]

/-- Witness for C1 at the sample configuration, with two distinct seeds for
the network-regeneration part. -/
theorem reset_deterministic_witness :
    sampleReadyEnv.cfg = sampleReadyEnv.cfg ∧
    (reset sampleReadyEnv).2 = (reset sampleReadyEnv).2 ∧
    sampleCfg.ringLengthRange = none ∧
    genNetwork { sampleCfg with scenario := { sampleCfg.scenario with seed := 1 } }
      = genNetwork { sampleCfg with scenario := { sampleCfg.scenario with seed := 2 } } ∧
    sampleCfg.scenario = sampleCfg.scenario ∧
    genNetwork sampleCfg = genNetwork sampleCfg :=
  ⟨rfl, reset_deterministic.1 sampleReadyEnv sampleReadyEnv rfl, rfl,
    reset_deterministic.2.1 sampleCfg 1 2 rfl,
    rfl, reset_deterministic.2.2 sampleCfg sampleCfg rfl rfl⟩

/-- C6: the registry preserves insertion order (`add` appends), successful
steps never change the id sequence, and every step's observation vector
has the same length (2 features per vehicle, in registry order) as the
observation built from the pre-step registry --- so the length fixed at
reset persists through the episode. -/
theorem obs_schema_stable :
    (∀ (r r' : VehicleRegistry) (v : Vehicle), r.add v = some r' →
      r'.vehicles = r.vehicles ++ [v]) ∧
    (∀ e : Env, (reset e).2 = obsFrom (reset e).1.registry ∧
      (reset e).2.length = 2 * (reset e).1.registry.vehicles.length) ∧
    (∀ (e : Env) (acts : List (String × Command)) (resp : SimResponse)
        (e' : Env) (res : StepResult), envStep e acts resp = .ok (e', res) →
      res.obs.length = (obsFrom e.registry).length ∧
      e'.registry.allIds = e.registry.allIds ∧
      (obsFrom e'.registry).length = (obsFrom e.registry).length) := by
  refine ⟨?_, ?_, ?_⟩
  · intro r r' v hadd
    unfold VehicleRegistry.add at hadd
    by_cases hc : r.allIds.contains v.id
    · rw [if_pos hc] at hadd
      cases hadd
    · rw [if_neg hc] at hadd
      cases hadd
      rfl
  · intro e
    exact ⟨rfl, obsFrom_length (initRegistry e.cfg)⟩
  · intro e acts resp e' res h
    unfold envStep at h
    by_cases hph : e.phase = .ready ∨ e.phase = .running
    · rw [if_pos hph] at h
      cases resp with
      | timeout =>
        dsimp only at h
        cases h
        exact ⟨rfl, rfl, rfl⟩
      | crashed =>
        dsimp only at h
        cases h
        exact ⟨rfl, rfl, rfl⟩
      | report states =>
        dsimp only at h
        by_cases hlen : states.length ≠ e.registry.vehicles.length
        · rw [if_pos hlen] at h
          cases h
        · rw [if_neg hlen] at h
          cases hup : updateAll e.registry states with
          | error err =>
            rw [hup] at h
            dsimp only at h
            cases h
          | ok reg' =>
            rw [hup] at h
            dsimp only at h
            have hids := updateAll_preserves_allIds states e.registry reg' hup
            have hcount : reg'.vehicles.length = e.registry.vehicles.length := by
              have hl := congrArg List.length hids
              simpa [VehicleRegistry.allIds] using hl
            by_cases hterm : e.cfg.terminalPred (obsFrom reg') = true
            · rw [if_pos hterm] at h
              cases h
              refine ⟨?_, hids, ?_⟩ <;> simp [obsFrom_length, hcount]
            · rw [if_neg hterm] at h
              by_cases hhor : e.cfg.horizon ≤ e.stepCount + 1
              · rw [if_pos hhor] at h
                cases h
                refine ⟨?_, hids, ?_⟩ <;> simp [obsFrom_length, hcount]
              · rw [if_neg hhor] at h
                cases h
                refine ⟨?_, hids, ?_⟩ <;> simp [obsFrom_length, hcount]
    · rw [if_neg hph] at h
      cases h

/-- Witness for C6: appending to an empty registry, and a concrete
successful (crash-terminating) step whose observation keeps its length. -/
theorem obs_schema_stable_witness :
    VehicleRegistry.add ⟨[]⟩ ⟨"veh0", ⟨0, 0, 0, 0⟩⟩
        = some ⟨[⟨"veh0", ⟨0, 0, 0, 0⟩⟩]⟩ ∧
    (⟨[⟨"veh0", ⟨0, 0, 0, 0⟩⟩]⟩ : VehicleRegistry).vehicles
        = (⟨[]⟩ : VehicleRegistry).vehicles ++ [⟨"veh0", ⟨0, 0, 0, 0⟩⟩] ∧
    envStep sampleReadyEnv [] .timeout
        = .ok (⟨sampleCfg, .doneCrash, sampleReadyEnv.registry, 0, 0⟩,
               ⟨obsFrom sampleReadyEnv.registry, 0, true, some .crash⟩) ∧
    ((⟨obsFrom sampleReadyEnv.registry, 0, true, some .crash⟩ : StepResult).obs.length
        = (obsFrom sampleReadyEnv.registry).length ∧
      (⟨sampleCfg, .doneCrash, sampleReadyEnv.registry, 0, 0⟩ : Env).registry.allIds
        = sampleReadyEnv.registry.allIds ∧
      (obsFrom (Env.registry ⟨sampleCfg, .doneCrash, sampleReadyEnv.registry, 0, 0⟩)).length
        = (obsFrom sampleReadyEnv.registry).length) :=
  ⟨rfl,
    obs_schema_stable.1 ⟨[]⟩ ⟨[⟨"veh0", ⟨0, 0, 0, 0⟩⟩]⟩ ⟨"veh0", ⟨0, 0, 0, 0⟩⟩ rfl,
    rfl,
    obs_schema_stable.2.2 sampleReadyEnv [] .timeout
      ⟨sampleCfg, .doneCrash, sampleReadyEnv.registry, 0, 0⟩
      ⟨obsFrom sampleReadyEnv.registry, 0, true, some .crash⟩ rfl⟩

/-- C7: `update` on an unknown id fails with `UnknownVehicleError`; `add`
enforces id uniqueness; and a step whose simulator report names an unknown
vehicle fails with `UnknownVehicleError` --- the step produces no successor
state, so the episode cannot proceed without `reset()`. -/
theorem registry_errors_spec :
    (∀ (r : VehicleRegistry) (id : String) (st : VehState),
      r.allIds.contains id = false →
        r.update id st = .error .unknownVehicleError) ∧
    (∀ (r : VehicleRegistry) (v : Vehicle),
      r.allIds.contains v.id = true → r.add v = none) ∧
    (∀ (e : Env) (acts : List (String × Command))
        (states : List (String × VehState)),
      (e.phase = .ready ∨ e.phase = .running) →
      states.length = e.registry.vehicles.length →
      (∃ p ∈ states, e.registry.allIds.contains p.1 = false) →
      envStep e acts (.report states) = .error .unknownVehicleError) := by
  refine ⟨?_, ?_, ?_⟩
  · intro r id st hc
    unfold VehicleRegistry.update
    rw [if_neg (by rw [hc]; exact Bool.false_ne_true)]
  · intro r v hc
    unfold VehicleRegistry.add
    rw [if_pos hc]
  · intro e acts states hph hlen hex
    unfold envStep
    rw [if_pos hph]
    dsimp only
    rw [if_neg (not_not_intro hlen)]
    rw [updateAll_unknown states e.registry hex]

/-- Witness for C7: a registry holding "veh0" rejects an update for the
unknown id "ghost", rejects a duplicate add of "veh0", and a step whose
report names "ghost" fails with `UnknownVehicleError`. -/
theorem registry_errors_spec_witness :
    (VehicleRegistry.allIds ⟨[⟨"veh0", ⟨0, 0, 0, 0⟩⟩]⟩).contains "ghost" = false ∧
    VehicleRegistry.update ⟨[⟨"veh0", ⟨0, 0, 0, 0⟩⟩]⟩ "ghost" ⟨0, 0, 0, 0⟩
      = .error .unknownVehicleError ∧
    (VehicleRegistry.allIds ⟨[⟨"veh0", ⟨0, 0, 0, 0⟩⟩]⟩).contains "veh0" = true ∧
    VehicleRegistry.add ⟨[⟨"veh0", ⟨0, 0, 0, 0⟩⟩]⟩ ⟨"veh0", ⟨1, 0, 0, 0⟩⟩ = none ∧
    envStep sampleReadyEnv [] (.report [("ghost", ⟨0, 0, 0, 0⟩)])
      = .error .unknownVehicleError :=
  ⟨rfl, registry_errors_spec.1 ⟨[⟨"veh0", ⟨0, 0, 0, 0⟩⟩]⟩ "ghost" ⟨0, 0, 0, 0⟩ rfl,
    rfl, registry_errors_spec.2.1 ⟨[⟨"veh0", ⟨0, 0, 0, 0⟩⟩]⟩ ⟨"veh0", ⟨1, 0, 0, 0⟩⟩ rfl,
    registry_errors_spec.2.2 sampleReadyEnv [] [("ghost", ⟨0, 0, 0, 0⟩)]
      (Or.inl rfl) rfl ⟨("ghost", ⟨0, 0, 0, 0⟩), List.mem_singleton.mpr rfl, rfl⟩⟩

end Flow
